import Mathlib

/-!
Verification of the YUV→BGR conversion core of `converty.py`.

The repository converts raw UYVY (4:2:2) and NV12 (4:2:0) frame dumps into
three-channel BGR images.  We embed the two conversion functions
(`convert_uyvy`, `convert_nv12`), the per-file dispatch (`process_file`) and
the batch loop of `main` as Lean functions over byte buffers modelled as
`List Nat` (each element an unsigned 8-bit sample).

The pixel-level colour transform itself is performed by `cv2.cvtColor`, an
external library whose source is not part of this repository; it is modelled
from the specification's formulas (see `yuv2bgr` and the sample-extraction
functions below).  Everything else — the size checks, the `int(…*1.5)`
expected-size arithmetic, the reshape feasibility condition, the format
dispatch and the batch loop — is translated directly from `converty.py`.
-/

/-- A converted image: a raster of `rows × cols` BGR byte triples.  Models the
numpy array returned by the converters (shape `(height, width, 3)`, dtype
uint8); `pix y x = (b, g, r)` is the pixel at row `y`, column `x`. -/
structure Image where
  rows : Nat
  cols : Nat
  pix : Nat → Nat → Nat × Nat × Nat

/-- Errors a conversion reports.  The Python code prints a message and returns
`None` in both cases; we keep the two distinct failure causes apart, matching
the two distinct messages: the explicit size check (`converty.py` lines 33–36
and 49–52) versus the `except` branch that catches any exception raised during
conversion (lines 42–43 and 58–60). -/
inductive ConvError where
  | sizeMismatch (actual expected : Nat)
  | convException
deriving DecidableEq

/-- Clamp a rational value to the interval `[0, 255]`. -/
def clamp255 (x : ℚ) : ℚ := max 0 (min 255 x)

/-- Quantize one colour channel: clamp to `[0, 255]`, round to nearest
integer, return as an unsigned byte value. -/
def toByte (x : ℚ) : Nat := (round (clamp255 x)).toNat

/-- Modelled from the spec: the full-range YUV→BGR pixel transform performed
by `cv2.cvtColor` (external library, source not in this repository).  Per the
spec: `R = Y + 1.402*(V-128)`, `G = Y - 0.344136*(U-128) - 0.714136*(V-128)`,
`B = Y + 1.772*(U-128)`, each clamped to `[0,255]`, rounded to nearest, and
emitted in BGR channel order. -/
def yuv2bgr (y u v : Nat) : Nat × Nat × Nat :=
  (toByte ((y : ℚ) + 1.772 * ((u : ℚ) - 128)),
   toByte ((y : ℚ) - 0.344136 * ((u : ℚ) - 128) - 0.714136 * ((v : ℚ) - 128)),
   toByte ((y : ℚ) + 1.402 * ((v : ℚ) - 128)))

/-- Modelled from the spec: luma sample of pixel `(x, y)` in a UYVY buffer
(`cv2.COLOR_YUV2BGR_UYVY` layout, spec §4.2: each 4-byte group `[U, Y0, V,
Y1]` spans two horizontal pixels; row stride is `2*width` bytes). -/
def uyvyY (data : List Nat) (width y x : Nat) : Nat :=
  data.getD (y * (width * 2) + 2 * x + 1) 0

/-- Modelled from the spec: shared U chroma sample of pixel `(x, y)` in a UYVY
buffer — first byte of the 4-byte macropixel group containing `x`. -/
def uyvyU (data : List Nat) (width y x : Nat) : Nat :=
  data.getD (y * (width * 2) + 4 * (x / 2)) 0

/-- Modelled from the spec: shared V chroma sample of pixel `(x, y)` in a UYVY
buffer — third byte of the 4-byte macropixel group containing `x`. -/
def uyvyV (data : List Nat) (width y x : Nat) : Nat :=
  data.getD (y * (width * 2) + 4 * (x / 2) + 2) 0

/-- The image produced by a successful UYVY conversion: every pixel runs the
YUV→BGR transform on its own luma and its macropixel's shared chroma. -/
def uyvyImage (data : List Nat) (width height : Nat) : Image :=
  { rows := height, cols := width,
    pix := fun y x =>
      yuv2bgr (uyvyY data width y x) (uyvyU data width y x) (uyvyV data width y x) }

/-- The expected byte count for a UYVY frame, `converty.py` line 33:
`expected_size = width * height * 2`. -/
def uyvyExpectedSize (width height : Nat) : Nat := width * height * 2

/-- The expected byte count for an NV12 frame, `converty.py` line 49:
`expected_size = int(width * height * 1.5)` — Python multiplies by the float
`1.5` and truncates toward zero, which on nonnegative integers is exactly
truncating division of `width*height*3` by `2`. -/
def nv12ExpectedSize (width height : Nat) : Nat := width * height * 3 / 2

/-- `convert_uyvy(data, width, height)` from `converty.py` (lines 29–43):
checks `data.size == width*height*2`, reshapes to `(height, width, 2)` (always
possible once the size matches) and converts via `cv2.COLOR_YUV2BGR_UYVY`.
On size mismatch it prints an error and returns `None`. -/
def convert_uyvy (data : List Nat) (width height : Nat) : Except ConvError Image :=
  if data.length ≠ uyvyExpectedSize width height then
    .error (.sizeMismatch data.length (uyvyExpectedSize width height))
  else
    .ok (uyvyImage data width height)

/-- Modelled from the spec: luma sample of pixel `(x, y)` in an NV12 buffer —
full-resolution luma plane of `height*width` bytes first. -/
def nv12Y (data : List Nat) (width y x : Nat) : Nat :=
  data.getD (y * width + x) 0

/-- Modelled from the spec: U chroma sample of pixel `(x, y)` in an NV12
buffer — interleaved chroma plane after the luma plane, indexed at
`(x/2, y/2)` with integer division, U first in each pair. -/
def nv12U (data : List Nat) (width height y x : Nat) : Nat :=
  data.getD (width * height + (y / 2) * width + 2 * (x / 2)) 0

/-- Modelled from the spec: V chroma sample of pixel `(x, y)` in an NV12
buffer — the byte after the U sample of the same chroma pair. -/
def nv12V (data : List Nat) (width height y x : Nat) : Nat :=
  data.getD (width * height + (y / 2) * width + 2 * (x / 2) + 1) 0

/-- The image produced by a successful NV12 conversion: every pixel runs the
YUV→BGR transform on its luma and the chroma pair of its 2×2 block. -/
def nv12Image (data : List Nat) (width height : Nat) : Image :=
  { rows := height, cols := width,
    pix := fun y x =>
      yuv2bgr (nv12Y data width y x) (nv12U data width height y x)
        (nv12V data width height y x) }

/-- `convert_nv12(data, width, height)` from `converty.py` (lines 45–60):
checks `data.size == int(width*height*1.5)` (Python float multiply then `int`
truncation; exactly `width*height*3/2` with truncating division), then
reshapes to `(int(height*1.5), width)`.  The reshape raises `ValueError` when
`int(height*1.5)*width` differs from the buffer size; the `except` branch
catches it and returns `None`.  Otherwise converts via
`cv2.COLOR_YUV2BGR_NV12`. -/
def convert_nv12 (data : List Nat) (width height : Nat) : Except ConvError Image :=
  if data.length ≠ nv12ExpectedSize width height then
    .error (.sizeMismatch data.length (nv12ExpectedSize width height))
  else if nv12ExpectedSize width height ≠ height * 3 / 2 * width then
    .error .convException
  else
    .ok (nv12Image data width height)

/-- Outcome of processing one file, as observable from `process_file`. -/
inductive ProcessResult where
  | readFailed
  | saved (img : Image)
  | convertFailed (e : ConvError)
  | unknownFormat

/-- `process_file(file_path, output_dir, width, height, fmt)` from
`converty.py` (lines 62–96), with the two I/O collaborators abstracted: the
file read is the `data` argument (`none` models a read failure, caught at
lines 65–69) and a successful `cv2.imwrite` is the `saved` outcome.  Dispatch
on the format tag is exact string comparison: `"uyvy"`, then `"nv12"`, else
the `Unknown format` branch returns without touching the buffer. -/
def process_file (data : Option (List Nat)) (width height : Nat) (fmt : String) :
    ProcessResult :=
  match data with
  | none => .readFailed
  | some d =>
    if fmt = "uyvy" then
      match convert_uyvy d width height with
      | .ok img => .saved img
      | .error e => .convertFailed e
    else if fmt = "nv12" then
      match convert_nv12 d width height with
      | .ok img => .saved img
      | .error e => .convertFailed e
    else
      .unknownFormat

/-- The batch loop of `main` (`converty.py` lines 169–170): every discovered
file is processed with the same geometry and format; one file's outcome never
stops the loop. -/
def runBatch (files : List (Option (List Nat))) (width height : Nat)
    (fmt : String) : List ProcessResult :=
  files.map fun d => process_file d width height fmt

/-- The flat-gray UYVY test buffer: `1920*1280*2` bytes, every byte 128. -/
def grayBuffer : List Nat := List.replicate (1920 * 1280 * 2) 128

/-- All three channels of a BGR triple are 8-bit values: each lies in
`[0, 255]` (the lower bound is inherent in the `Nat` sample type, the upper
bound is the clamp). -/
def bgrIn8bit (p : Nat × Nat × Nat) : Prop :=
  p.1 ≤ 255 ∧ p.2.1 ≤ 255 ∧ p.2.2 ≤ 255

/-- Observes whether a conversion result is the explicit size-check failure
(as opposed to success or the caught-exception branch). -/
def isSizeMismatch : Except ConvError Image → Bool
  | .error (.sizeMismatch _ _) => true
  | _ => false

/- ### Helper lemmas -/

theorem toByte_le (x : ℚ) : toByte x ≤ 255 := by
  have h1 : clamp255 x ≤ 255 := max_le (by norm_num) (min_le_left _ _)
  have h2 : round (clamp255 x) ≤ 255 := by
    rw [round_eq]
    have h3 : ⌊clamp255 x + 1 / 2⌋ < (256 : ℤ) := Int.floor_lt.mpr (by push_cast; linarith)
    omega
  unfold toByte
  omega

theorem getD_replicate_of_lt {n i a : Nat} (h : i < n) :
    (List.replicate n a).getD i 0 = a := by
  simp [List.getD_eq_getElem?_getD, List.getElem?_replicate_of_lt h]

theorem yuv2bgr_gray : yuv2bgr 128 128 128 = (128, 128, 128) := by
  have h : (128 : ℤ).toNat = 128 := rfl
  norm_num [yuv2bgr, toByte, clamp255, h]

theorem nat_mul_three_div_two_floor (n : Nat) :
    ((n * 3 / 2 : Nat) : ℤ) = ⌊(1.5 : ℚ) * n⌋ := by
  have h15 : (1.5 : ℚ) * n = 3 * n / 2 := by
    rw [show (1.5 : ℚ) = 3 / 2 by norm_num]
    ring
  rw [h15]
  have h1 : 2 * (n * 3 / 2) ≤ n * 3 := by omega
  have h2 : n * 3 < 2 * (n * 3 / 2) + 2 := by omega
  have h1q : 2 * ((n * 3 / 2 : Nat) : ℚ) ≤ (n : ℚ) * 3 := by exact_mod_cast h1
  have h2q : (n : ℚ) * 3 < 2 * ((n * 3 / 2 : Nat) : ℚ) + 2 := by exact_mod_cast h2
  refine le_antisymm (Int.le_floor.mpr ?_) (Int.lt_add_one_iff.mp (Int.floor_lt.mpr ?_))
  · rw [Int.cast_natCast]
    linarith
  · rw [Int.cast_add, Int.cast_natCast, Int.cast_one]
    linarith

/- ### Claim theorems -/

/-- C2: for all positive width and height, the expected byte count used for
validation is `width*height*2` for UYVY and `floor(1.5*width*height)` —
truncated toward zero with exact integer semantics, including odd heights —
for NV12. -/
theorem expected_size_formula (width height : Nat) (hw : 0 < width)
    (hh : 0 < height) :
    uyvyExpectedSize width height = 2 * (width * height) ∧
    (nv12ExpectedSize width height : ℤ) = ⌊(1.5 : ℚ) * ((width * height : Nat) : ℚ)⌋ := by
  constructor
  · unfold uyvyExpectedSize
    ring
  · unfold nv12ExpectedSize
    exact nat_mul_three_div_two_floor (width * height)

theorem expected_size_formula_witness :
    uyvyExpectedSize 3 5 = 2 * (3 * 5) ∧
    (nv12ExpectedSize 3 5 : ℤ) = ⌊(1.5 : ℚ) * ((3 * 5 : Nat) : ℚ)⌋ :=
  expected_size_formula 3 5 (by decide) (by decide)

/-- C3: the size validation of either converter fails iff the buffer length
differs from the expected size for the declared geometry and format — never a
mismatch on an exactly-sized buffer, never success (or any other outcome) on a
size-mismatched buffer, regardless of buffer content. -/
theorem size_check_iff_length_mismatch (data : List Nat) (width height : Nat) :
    (isSizeMismatch (convert_uyvy data width height) = true ↔
      data.length ≠ uyvyExpectedSize width height) ∧
    (isSizeMismatch (convert_nv12 data width height) = true ↔
      data.length ≠ nv12ExpectedSize width height) := by
  constructor
  · unfold convert_uyvy
    split_ifs with h <;> simp [isSizeMismatch, h]
  · unfold convert_nv12
    split_ifs with h1 h2 <;> simp [isSizeMismatch, h1]

/-- C4: for every valid 8-bit `(Y, U, V)` sample, the pixel transform emits,
in BGR channel order, the standard full-range formulas `R = Y + 1.402*(V-128)`,
`G = Y - 0.344136*(U-128) - 0.714136*(V-128)`, `B = Y + 1.772*(U-128)`,
clamped to `[0, 255]` and rounded to nearest integer.  (The transform is
modelled from the spec: it is performed by `cv2.cvtColor`, an external
library whose source is not part of this repository.) -/
theorem pixel_transform_formula (y u v : Nat) (hy : y < 256) (hu : u < 256)
    (hv : v < 256) :
    yuv2bgr y u v =
      ((round (max 0 (min 255 ((y : ℚ) + 1.772 * ((u : ℚ) - 128))))).toNat,
       (round (max 0 (min 255 ((y : ℚ) - 0.344136 * ((u : ℚ) - 128) -
         0.714136 * ((v : ℚ) - 128))))).toNat,
       (round (max 0 (min 255 ((y : ℚ) + 1.402 * ((v : ℚ) - 128))))).toNat) :=
  rfl

theorem pixel_transform_formula_witness :
    (10 : Nat) < 256 ∧
    yuv2bgr 10 20 30 =
      ((round (max 0 (min 255 (((10 : Nat) : ℚ) + 1.772 * (((20 : Nat) : ℚ) - 128))))).toNat,
       (round (max 0 (min 255 (((10 : Nat) : ℚ) - 0.344136 * (((20 : Nat) : ℚ) - 128) -
         0.714136 * (((30 : Nat) : ℚ) - 128))))).toNat,
       (round (max 0 (min 255 (((10 : Nat) : ℚ) + 1.402 * (((30 : Nat) : ℚ) - 128))))).toNat) :=
  ⟨by decide, pixel_transform_formula 10 20 30 (by decide) (by decide) (by decide)⟩

/-- C8: for all valid 8-bit Y, U, V inputs, every channel value produced by
the YUV→RGB transform lies in `[0, 255]` — the samples are nonnegative by
type and the clamp bounds each at 255.  (Transform modelled from the spec;
see `yuv2bgr`.) -/
theorem transform_output_in_range (y u v : Nat) (hy : y < 256) (hu : u < 256)
    (hv : v < 256) :
    bgrIn8bit (yuv2bgr y u v) :=
  ⟨toByte_le _, toByte_le _, toByte_le _⟩

theorem transform_output_in_range_witness :
    (0 : Nat) < 256 ∧ bgrIn8bit (yuv2bgr 0 255 255) :=
  ⟨by decide, transform_output_in_range 0 255 255 (by decide) (by decide) (by decide)⟩

/-- C9: a format tag outside `{"uyvy", "nv12"}` makes `process_file` take the
`Unknown format` branch: it reports `unknownFormat` and attempts no conversion
on the buffer (the outcome is the same for every buffer and geometry). -/
theorem unknown_format_no_conversion (data : List Nat) (width height : Nat)
    (fmt : String) (h1 : fmt ≠ "uyvy") (h2 : fmt ≠ "nv12") :
    process_file (some data) width height fmt = .unknownFormat := by
  simp [process_file, h1, h2]

theorem unknown_format_no_conversion_witness :
    ("yuyv" : String) ≠ "uyvy" ∧ ("yuyv" : String) ≠ "nv12" ∧
    process_file (some [0]) 1 1 "yuyv" = .unknownFormat :=
  ⟨by decide, by decide,
    unknown_format_no_conversion [0] 1 1 "yuyv" (by decide) (by decide)⟩

/-- C5: with odd height and width > 1, `convert_nv12` errors even on a buffer
of exactly the validated size `int(width*height*1.5)`: the reshape target
`(int(height*1.5), width)` has a different total element count, so the reshape
raises and the `except` branch reports the failure (Python returns `None`). -/
theorem nv12_odd_height_reshape_error (data : List Nat) (width height : Nat)
    (hodd : height % 2 = 1) (hw : 1 < width)
    (hlen : data.length = nv12ExpectedSize width height) :
    convert_nv12 data width height = .error .convException := by
  have key : nv12ExpectedSize width height ≠ height * 3 / 2 * width := by
    unfold nv12ExpectedSize
    obtain ⟨k, hk⟩ : ∃ k, height = 2 * k + 1 := ⟨height / 2, by omega⟩
    subst hk
    have e1 : width * (2 * k + 1) * 3 = 6 * (k * width) + 3 * width := by ring
    have e2 : (2 * k + 1) * 3 / 2 * width = 3 * (k * width) + width := by
      have e3 : (2 * k + 1) * 3 = 2 * (3 * k) + 3 := by ring
      have e4 : (2 * (3 * k) + 3) / 2 = 3 * k + 1 := by omega
      rw [e3, e4]
      ring
    rw [e1, e2]
    generalize k * width = m
    omega
  unfold convert_nv12
  rw [if_neg (not_not_intro hlen), if_pos key]

theorem nv12_odd_height_reshape_error_witness :
    (1 : Nat) % 2 = 1 ∧ (1 : Nat) < 2 ∧
    ([0, 0, 0] : List Nat).length = nv12ExpectedSize 2 1 ∧
    convert_nv12 [0, 0, 0] 2 1 = .error .convException :=
  ⟨by decide, by decide, by decide,
    nv12_odd_height_reshape_error [0, 0, 0] 2 1 (by decide) (by decide) (by decide)⟩

/-- C1, counterexample: a buffer of exactly the expected NV12 size for
`width = 2, height = 1` (both positive) does not convert — `convert_nv12`
returns an error, so the claim "conversion succeeds for every exactly-sized
buffer with width, height > 0 and format in {UYVY, NV12}" fails as stated. -/
theorem exact_size_nv12_conversion_fails :
    ([0, 0, 0] : List Nat).length = nv12ExpectedSize 2 1 ∧ (0 : Nat) < 2 ∧
    (0 : Nat) < 1 ∧ convert_nv12 [0, 0, 0] 2 1 = .error .convException :=
  ⟨rfl, by decide, by decide, rfl⟩

/-- C1, amended: for every buffer whose length exactly equals the expected
size for the declared `(width, height, format)` with `width, height > 0` and
format in {UYVY, NV12}, the conversion succeeds and produces a three-channel
image of `height` rows by `width` columns with unsigned 8-bit samples —
except for NV12 with odd height and width > 1, where the internal reshape
fails (see the counterexample and C5). -/
theorem conversion_succeeds_on_exact_size (data : List Nat) (width height : Nat)
    (hw : 0 < width) (hh : 0 < height) :
    (data.length = uyvyExpectedSize width height →
      ∃ img, convert_uyvy data width height = .ok img ∧ img.rows = height ∧
        img.cols = width ∧ ∀ y x, bgrIn8bit (img.pix y x)) ∧
    (data.length = nv12ExpectedSize width height →
      height % 2 = 0 ∨ width = 1 →
      ∃ img, convert_nv12 data width height = .ok img ∧ img.rows = height ∧
        img.cols = width ∧ ∀ y x, bgrIn8bit (img.pix y x)) := by
  constructor
  · intro hlen
    refine ⟨uyvyImage data width height, ?_, rfl, rfl,
      fun y x => ⟨toByte_le _, toByte_le _, toByte_le _⟩⟩
    unfold convert_uyvy
    rw [if_neg (not_not_intro hlen)]
  · intro hlen hcond
    have heq : nv12ExpectedSize width height = height * 3 / 2 * width := by
      unfold nv12ExpectedSize
      rcases hcond with he | h1
      · obtain ⟨k, hk⟩ : ∃ k, height = 2 * k := ⟨height / 2, by omega⟩
        subst hk
        have e1 : width * (2 * k) * 3 = 2 * (3 * (k * width)) := by ring
        have e2 : 2 * k * 3 = 2 * (3 * k) := by ring
        rw [e1, e2, Nat.mul_div_cancel_left _ (by norm_num),
          Nat.mul_div_cancel_left _ (by norm_num)]
        ring
      · subst h1
        simp
    refine ⟨nv12Image data width height, ?_, rfl, rfl,
      fun y x => ⟨toByte_le _, toByte_le _, toByte_le _⟩⟩
    unfold convert_nv12
    rw [if_neg (not_not_intro hlen), if_neg (not_not_intro heq)]

theorem conversion_succeeds_on_exact_size_witness :
    ∃ img, convert_uyvy [0, 0, 0, 0] 2 1 = .ok img ∧ img.rows = 1 ∧
      img.cols = 2 ∧ ∀ y x, bgrIn8bit (img.pix y x) :=
  (conversion_succeeds_on_exact_size [0, 0, 0, 0] 2 1 (by decide) (by decide)).1 rfl

/-- C7: every output pixel of a successful NV12 conversion takes its chroma
pair from index `(x/2, y/2)` of the interleaved chroma plane (integer
division, U then V), so the four luma samples of any 2×2 block consume the
identical (U, V) pair in the transform.  (Plane layout modelled from the
spec; the conversion is performed by `cv2.cvtColor`, external.) -/
theorem nv12_chroma_sharing (data : List Nat) (width height : Nat)
    (img : Image) (hok : convert_nv12 data width height = .ok img)
    (a b dx dy : Nat) (hdx : dx < 2) (hdy : dy < 2) :
    img.pix (2 * b + dy) (2 * a + dx) =
      yuv2bgr (data.getD ((2 * b + dy) * width + (2 * a + dx)) 0)
        (data.getD (width * height + b * width + 2 * a) 0)
        (data.getD (width * height + b * width + 2 * a + 1) 0) := by
  have himg : img = nv12Image data width height := by
    unfold convert_nv12 at hok
    split_ifs at hok
    exact (Except.ok.inj hok).symm
  subst himg
  show yuv2bgr _ _ _ = _
  unfold nv12Y nv12U nv12V
  have h1 : (2 * b + dy) / 2 = b := by omega
  have h2 : (2 * a + dx) / 2 = a := by omega
  rw [h1, h2]

theorem nv12_chroma_sharing_witness :
    (nv12Image [10, 20, 30, 40, 50, 60] 2 2).pix 1 1 = yuv2bgr 40 50 60 :=
  nv12_chroma_sharing [10, 20, 30, 40, 50, 60] 2 2
    (nv12Image [10, 20, 30, 40, 50, 60] 2 2) rfl 0 0 1 1 (by decide) (by decide)

/-- C10: the per-format conversion functions are total error-reporting
functions (every internal failure is the `error` value of the `Except`, never
an exception escaping to the caller), and the batch loop of `main` yields one
outcome per file: its result list has one entry per input file and the entry
for file `i` depends only on that file's own data, so no file's failure aborts
the batch or affects the processing of the next file. -/
theorem batch_processes_every_file (files : List (Option (List Nat)))
    (width height : Nat) (fmt : String) :
    (runBatch files width height fmt).length = files.length ∧
    ∀ i, i < files.length →
      (runBatch files width height fmt).getD i .unknownFormat =
        process_file (files.getD i none) width height fmt := by
  refine ⟨by simp [runBatch], ?_⟩
  intro i hi
  simp [runBatch, List.getD_eq_getElem?_getD, List.getElem?_map,
    List.getElem?_eq_getElem (by simpa using hi)]

theorem batch_processes_every_file_witness :
    (runBatch [some [0], none] 1 1 "uyvy").length = 2 ∧
    (runBatch [some [0], none] 1 1 "uyvy").getD 1 .unknownFormat =
      process_file none 1 1 "uyvy" :=
  ⟨(batch_processes_every_file [some [0], none] 1 1 "uyvy").1,
    (batch_processes_every_file [some [0], none] 1 1 "uyvy").2 1 (by decide)⟩

/-- C6: the flat-gray UYVY buffer of `1920*1280*2` bytes, every byte 128
(Y = U = V = 128), converts successfully to a 1280×1920×3 image whose every
channel at every pixel is within ±1 of 128 (in fact exactly 128).
(Transform modelled from the spec; see `yuv2bgr`.) -/
theorem flat_gray_uyvy_roundtrip (y x : Nat) (hy : y < 1280) (hx : x < 1920) :
    convert_uyvy grayBuffer 1920 1280 = .ok (uyvyImage grayBuffer 1920 1280) ∧
    (uyvyImage grayBuffer 1920 1280).rows = 1280 ∧
    (uyvyImage grayBuffer 1920 1280).cols = 1920 ∧
    127 ≤ ((uyvyImage grayBuffer 1920 1280).pix y x).1 ∧
    ((uyvyImage grayBuffer 1920 1280).pix y x).1 ≤ 129 ∧
    127 ≤ ((uyvyImage grayBuffer 1920 1280).pix y x).2.1 ∧
    ((uyvyImage grayBuffer 1920 1280).pix y x).2.1 ≤ 129 ∧
    127 ≤ ((uyvyImage grayBuffer 1920 1280).pix y x).2.2 ∧
    ((uyvyImage grayBuffer 1920 1280).pix y x).2.2 ≤ 129 := by
  have hlen : grayBuffer.length = uyvyExpectedSize 1920 1280 := by
    simp only [grayBuffer, List.length_replicate, uyvyExpectedSize]
  have hY : uyvyY grayBuffer 1920 y x = 128 := by
    unfold uyvyY grayBuffer
    exact getD_replicate_of_lt (by omega)
  have hU : uyvyU grayBuffer 1920 y x = 128 := by
    unfold uyvyU grayBuffer
    exact getD_replicate_of_lt (by omega)
  have hV : uyvyV grayBuffer 1920 y x = 128 := by
    unfold uyvyV grayBuffer
    exact getD_replicate_of_lt (by omega)
  have hpix : (uyvyImage grayBuffer 1920 1280).pix y x = (128, 128, 128) := by
    show yuv2bgr _ _ _ = _
    rw [hY, hU, hV, yuv2bgr_gray]
  refine ⟨?_, rfl, rfl, ?_, ?_, ?_, ?_, ?_, ?_⟩
  · unfold convert_uyvy
    rw [if_neg (not_not_intro hlen)]
  all_goals rw [hpix]
  all_goals decide

theorem flat_gray_uyvy_roundtrip_witness :
    convert_uyvy grayBuffer 1920 1280 = .ok (uyvyImage grayBuffer 1920 1280) ∧
    (uyvyImage grayBuffer 1920 1280).rows = 1280 ∧
    (uyvyImage grayBuffer 1920 1280).cols = 1920 ∧
    127 ≤ ((uyvyImage grayBuffer 1920 1280).pix 0 0).1 ∧
    ((uyvyImage grayBuffer 1920 1280).pix 0 0).1 ≤ 129 ∧
    127 ≤ ((uyvyImage grayBuffer 1920 1280).pix 0 0).2.1 ∧
    ((uyvyImage grayBuffer 1920 1280).pix 0 0).2.1 ≤ 129 ∧
    127 ≤ ((uyvyImage grayBuffer 1920 1280).pix 0 0).2.2 ∧
    ((uyvyImage grayBuffer 1920 1280).pix 0 0).2.2 ≤ 129 :=
  flat_gray_uyvy_roundtrip 0 0 (by decide) (by decide)
